import Mathlib

/-!
Verification of the G1 allocation layer (`src/share/vm/gc/g1/g1Allocator.hpp`).

Addresses are modelled as natural numbers (word/byte offsets into the heap).
Functions defined in `g1Allocator.hpp` itself are translated directly from
that source.  The `PLAB` base class, the `InCSetState` header and the
out-of-line constructor of `G1DefaultParGCAllocator` are not part of the
sources; the corresponding definitions are modelled from the spec and are
marked `Modelled from the spec:` in their doc comments.
-/

/-- Buffer state, from the source class `G1PLAB` and the spec's data model:
`Buffer = \x7b start, current, limit, retired \x7d` with the waste counters the
spec's statistics contract mentions.  `start <= current <= limit` is the
spec's stated invariant. -/
structure PLABState where
  start : Nat
  current : Nat
  limit : Nat
  wasted : Nat
  undo_wasted : Nat
  retired : Bool
deriving Repr, DecidableEq

/-- Shared statistics sink (`PLABStats`), receiving flushed waste counters. -/
structure PLABStatsState where
  wasted : Nat
  undo_wasted : Nat
deriving Repr, DecidableEq

/-- Round `a` up to the next multiple of `k` (alignment padding). -/
def alignUp (a k : Nat) : Nat :=
  k * ((a + k - 1) / k)

namespace PLAB

/-- Modelled from the spec (the `PLAB` base class is not in the sources):
`allocate(n)` succeeds iff `current + n <= limit`; on success it returns the
old `current` and advances it by `n`. -/
def allocate (s : PLABState) (n : Nat) : Option Nat × PLABState :=
  if s.current + n ≤ s.limit then
    (some s.current, { s with current := s.current + n })
  else
    (none, s)

/-- Modelled from the spec (the `PLAB` base class is not in the sources):
`allocate_aligned(n, align)` first pads `current` up to the alignment
boundary, recording the pad as waste, then performs the same bound check
as `allocate`. -/
def allocate_aligned (s : PLABState) (n k : Nat) : Option Nat × PLABState :=
  let padded := alignUp s.current k
  if padded + n ≤ s.limit then
    (some padded,
      { s with current := padded + n, wasted := s.wasted + (padded - s.current) })
  else
    (none, s)

/-- Modelled from the spec (the `PLAB` base class is not in the sources):
retiring a buffer counts the unused tail `limit - current` as waste and
exhausts the window, so that the retired range can never again satisfy an
allocation (spec: "once `retired == true` the buffer must never again
satisfy an allocation"). -/
def retire_internal (s : PLABState) : PLABState :=
  { s with wasted := s.wasted + (s.limit - s.current), current := s.limit }

/-- Modelled from the spec (the `PLAB` base class is not in the sources):
`undo_allocation(a, n)` rolls back the most recent bump.  It is valid only
when `a` is the current allocation frontier minus `n` on a live
(non-retired) buffer — only the most recent allocation can be undone, and a
retired buffer has none; anything else "is undefined and must be rejected
or asserted against", modelled as `none`.  The reclaimed words are tracked
in the undo-waste counter. -/
def undo_allocation (s : PLABState) (a n : Nat) : Option PLABState :=
  if s.retired = false ∧ s.start ≤ a ∧ a + n = s.current then
    some { s with current := a, undo_wasted := s.undo_wasted + n }
  else
    none

/-- Modelled from the spec (the `PLAB` base class is not in the sources):
`flush_and_retire_stats` retires the buffer and flushes its waste counters
into the shared statistics sink, zeroing the local counters so that nothing
is ever double counted. -/
def flush_and_retire_stats (s : PLABState) (st : PLABStatsState) :
    PLABState × PLABStatsState :=
  let s1 := retire_internal s
  ({ s1 with wasted := 0, undo_wasted := 0 },
   { wasted := st.wasted + s1.wasted,
     undo_wasted := st.undo_wasted + s1.undo_wasted })

/-- Modelled from the spec (the `PLAB` base class is not in the sources):
`set_buf` re-points the buffer at a fresh range `[buf, buf + sz)`. -/
def set_buf (s : PLABState) (buf sz : Nat) : PLABState :=
  { start := buf, current := buf, limit := buf + sz,
    wasted := s.wasted, undo_wasted := s.undo_wasted, retired := s.retired }

end PLAB

namespace G1PLAB

/-- From the source (`G1PLAB::set_buf`): delegate to `PLAB::set_buf`, then
clear the retired flag. -/
def set_buf (s : PLABState) (buf sz : Nat) : PLABState :=
  { PLAB.set_buf s buf sz with retired := false }

/-- From the source (`G1PLAB::retire`): if already retired, return at once;
otherwise perform the base-class retirement and set the retired flag. -/
def retire (s : PLABState) : PLABState :=
  if s.retired then s
  else { PLAB.retire_internal s with retired := true }

/-- From the source (`G1PLAB::flush_and_retire_stats`): perform the
base-class flush-and-retire, then set the retired flag. -/
def flush_and_retire_stats (s : PLABState) (st : PLABStatsState) :
    PLABState × PLABStatsState :=
  let p := PLAB.flush_and_retire_stats s st
  ({ p.1 with retired := true }, p.2)

/-- From the source (`G1PLAB::~G1PLAB`): the destructor guarantees the
buffer has been retired; destroying a non-retired buffer is a fatal
contract violation. -/
def destruct (s : PLABState) : Except String Unit :=
  if s.retired then Except.ok ()
  else Except.error "Allocation buffer has not been retired"

end G1PLAB

/-- Modelled from the spec (`g1InCSetState.hpp` is not in the sources): the
destination tag for an evacuated object — survivor space or old generation,
with "not in collection set" also representable.  `Num` bounds the
per-destination buffer array. -/
structure InCSetState where
  value : Int
deriving Repr, DecidableEq

namespace InCSetState

/-- Modelled from the spec: the "not in collection set" tag value. -/
def NotInCSet : Int := 0

/-- Modelled from the spec: the young/survivor destination tag value. -/
def Young : Int := 1

/-- Modelled from the spec: the old-generation destination tag value. -/
def Old : Int := 2

/-- Modelled from the spec: number of tag values, the size of the
per-destination buffer array. -/
def Num : Int := 3

/-- Modelled from the spec: a tag is a valid allocation destination when it
is an in-collection-set state, i.e. strictly between `NotInCSet` and
`Num`. -/
def is_valid (d : InCSetState) : Bool :=
  NotInCSet < d.value && d.value < Num

/-- Modelled from the spec: the young/survivor tag test. -/
def is_young (d : InCSetState) : Bool :=
  d.value == Young

end InCSetState

/-- Allocation context token (opaque; the default allocator ignores it). -/
def AllocationContext_t : Type := Nat

namespace G1ParGCAllocator

/-- From the source (`G1ParGCAllocator::calc_survivor_alignment_bytes`):
returns 0 ("survivor alignment is not used") when the configured survivor
alignment equals the baseline object alignment, and the configured survivor
alignment unchanged otherwise. -/
def calc_survivor_alignment_bytes (survivorAlignmentInBytes objectAlignmentInBytes : Nat) : Nat :=
  if survivorAlignmentInBytes = objectAlignmentInBytes then 0
  else survivorAlignmentInBytes

/-- From the source (`G1ParGCAllocator::plab_allocate`): `b` is the worker's
private buffer obtained via `alloc_buffer(dest, context)`.  When survivor
alignment is unused or the destination is not young, a plain bump
allocation; otherwise an alignment-padded allocation to the survivor
alignment boundary. -/
def plab_allocate (survivorAlignmentBytes : Nat) (dest : InCSetState)
    (context : AllocationContext_t) (b : PLABState) (word_sz : Nat) :
    Option Nat × PLABState :=
  if survivorAlignmentBytes = 0 ∨ dest.is_young = false then
    PLAB.allocate b word_sz
  else
    PLAB.allocate_aligned b word_sz survivorAlignmentBytes

/-- From the source (`G1ParGCAllocator::allocate`): first try
`plab_allocate`; when it returns an address that address is the result;
only otherwise call `allocate_direct_or_new_plab` (defined out of line, so
taken here as an arbitrary state transformer `direct`) and return its
result.  The function is total: exhaustion surfaces as `none`, never as an
abort. -/
def allocate (survivorAlignmentBytes : Nat)
    (direct : InCSetState → Nat → AllocationContext_t → PLABState → Option Nat × PLABState)
    (dest : InCSetState) (context : AllocationContext_t) (b : PLABState)
    (word_sz : Nat) : Option Nat × PLABState :=
  match plab_allocate survivorAlignmentBytes dest context b word_sz with
  | (some obj, b1) => (some obj, b1)
  | (none, b1) => direct dest word_sz context b1

/-- From the source (`G1ParGCAllocator::undo_allocation`): forwards to the
buffer for the destination. -/
def undo_allocation (dest : InCSetState) (context : AllocationContext_t)
    (b : PLABState) (obj word_sz : Nat) : Option PLABState :=
  PLAB.undo_allocation b obj word_sz

end G1ParGCAllocator

/-- A heap region, reduced to the one observation the embedded code makes
of it: its used-byte count. -/
structure HeapRegion where
  used : Nat
deriving Repr, DecidableEq

/-- From the source (`G1DefaultAllocator::used_in_alloc_regions`): the
shared mutator alloc-region pointer is modelled as the stream of values
successive reads of it would return; the code performs exactly one read
(index 0) into a local `hr` before dereferencing, adds `hr->used()` to the
zero-initialised result when the pointer is non-null, and returns 0
otherwise. -/
def used_in_alloc_regions (reads : Nat → Option HeapRegion) : Nat :=
  let hr := reads 0
  match hr with
  | some r => 0 + r.used
  | none => 0

/-- The two concrete buffers owned by `G1DefaultParGCAllocator`. -/
inductive G1DefaultBuffer where
  | surviving_alloc_buffer
  | tenured_alloc_buffer
deriving Repr, DecidableEq

namespace G1DefaultParGCAllocator

/-- Modelled from the spec (the constructor is defined out of line): the
per-destination buffer array of `G1DefaultParGCAllocator`, wiring the
young/survivor slot to the surviving buffer and the old slot to the tenured
buffer; every other slot holds no buffer (NULL). -/
def alloc_buffers (i : Int) : Option G1DefaultBuffer :=
  if i = InCSetState.Young then some G1DefaultBuffer.surviving_alloc_buffer
  else if i = InCSetState.Old then some G1DefaultBuffer.tenured_alloc_buffer
  else none

/-- From the source (`G1DefaultParGCAllocator::alloc_buffer`): assert the
destination is valid, assert the indexed buffer is non-null, and return it.
A failed assertion is modelled as an error result. -/
def alloc_buffer (dest : InCSetState) (context : AllocationContext_t) :
    Except String G1DefaultBuffer :=
  if dest.is_valid = false then
    Except.error "Allocation buffer index out-of-bounds"
  else
    match alloc_buffers dest.value with
    | some b => Except.ok b
    | none => Except.error "Allocation buffer is NULL"

end G1DefaultParGCAllocator

/-- The operations a worker can apply to one of its buffers, at the
interface the allocator exposes. -/
inductive BufOp where
  | setBuf (buf sz : Nat)
  | plabAlloc (survivorAlignmentBytes : Nat) (dest : InCSetState)
      (context : AllocationContext_t) (n : Nat)
  | retire
  | flushRetire
  | undo (a n : Nat)

/-- One step of the buffer state machine: apply a `BufOp` to the buffer
state, discarding returned addresses and flushed statistics (a rejected
undo leaves the state unchanged). -/
def bufStep (s : PLABState) : BufOp → PLABState
  | BufOp.setBuf buf sz => G1PLAB.set_buf s buf sz
  | BufOp.plabAlloc sv dest context n =>
      (G1ParGCAllocator.plab_allocate sv dest context s n).2
  | BufOp.retire => G1PLAB.retire s
  | BufOp.flushRetire => (G1PLAB.flush_and_retire_stats s ⟨0, 0⟩).1
  | BufOp.undo a n => (PLAB.undo_allocation s a n).getD s

/-- The retirement invariant: a retired buffer's window is exhausted. -/
def BufInv (s : PLABState) : Prop :=
  s.retired = true → s.current = s.limit

section AlignLemmas

theorem alignUp_ge (a : Nat) {k : Nat} (hk : 0 < k) : a ≤ alignUp a k := by
  unfold alignUp
  have h1 := Nat.div_add_mod (a + k - 1) k
  have h2 := Nat.mod_lt (a + k - 1) hk
  omega

theorem alignUp_mod (a k : Nat) : alignUp a k % k = 0 := by
  unfold alignUp
  exact Nat.mul_mod_right k _

theorem alignUp_eq_self {a k : Nat} (hk : 0 < k) (h : a % k = 0) :
    alignUp a k = a := by
  obtain ⟨m, rfl⟩ : ∃ m, a = k * m :=
    ⟨a / k, (Nat.mul_div_cancel' (Nat.dvd_of_mod_eq_zero h)).symm⟩
  unfold alignUp
  have h1 : k * m + k - 1 = k * m + (k - 1) := by omega
  rw [h1, Nat.mul_add_div hk, Nat.div_eq_of_lt (by omega)]
  simp

end AlignLemmas

/-- C9: `calc_survivor_alignment_bytes` returns 0 (survivor alignment
unused) exactly when the configured survivor alignment equals the baseline
object alignment, and returns the configured survivor alignment unchanged
otherwise; under the precondition `SurvivorAlignmentInBytes >=
ObjectAlignmentInBytes` the result is always either 0 or strictly greater
than the baseline object alignment. -/
theorem calc_survivor_alignment_bytes_spec (sab oab : Nat) (h : oab ≤ sab) :
    (G1ParGCAllocator.calc_survivor_alignment_bytes sab oab = 0 ↔ sab = oab) ∧
    (sab ≠ oab → G1ParGCAllocator.calc_survivor_alignment_bytes sab oab = sab) ∧
    (G1ParGCAllocator.calc_survivor_alignment_bytes sab oab = 0 ∨
      oab < G1ParGCAllocator.calc_survivor_alignment_bytes sab oab) := by
  unfold G1ParGCAllocator.calc_survivor_alignment_bytes
  by_cases hEq : sab = oab
  · simp [hEq]
  · simp [hEq]
    omega

theorem calc_survivor_alignment_bytes_witness :
    G1ParGCAllocator.calc_survivor_alignment_bytes 32 8 = 32 ∧
    G1ParGCAllocator.calc_survivor_alignment_bytes 8 8 = 0 :=
  ⟨(calc_survivor_alignment_bytes_spec 32 8 (by decide)).2.1 (by decide),
   ((calc_survivor_alignment_bytes_spec 8 8 (by decide)).1).mpr rfl⟩

/-- C6: the `G1PLAB` destructor's guarantee passes exactly when the buffer
was retired before destruction; destroying a non-retired buffer is detected
and fatal (an error result), and destroying any retired buffer passes. -/
theorem g1plab_destruct_spec (s : PLABState) :
    (G1PLAB.destruct s = Except.ok () ↔ s.retired = true) ∧
    (s.retired = false →
      G1PLAB.destruct s = Except.error "Allocation buffer has not been retired") := by
  unfold G1PLAB.destruct
  cases hr : s.retired <;> simp

theorem g1plab_destruct_witness :
    G1PLAB.destruct ⟨0, 4, 4, 0, 0, true⟩ = Except.ok () ∧
    G1PLAB.destruct ⟨0, 2, 4, 0, 0, false⟩ =
      Except.error "Allocation buffer has not been retired" :=
  ⟨(g1plab_destruct_spec ⟨0, 4, 4, 0, 0, true⟩).1.mpr rfl,
   (g1plab_destruct_spec ⟨0, 2, 4, 0, 0, false⟩).2 rfl⟩

/-- C8: `used_in_alloc_regions` reads the mutator alloc-region pointer
exactly once (its result depends only on the first value of the read
stream, never on any later read), returns the bytes used in the region
when the pointer is non-null, and returns 0 when no mutator region is
held. -/
theorem used_in_alloc_regions_spec :
    (∀ r1 r2 : Nat → Option HeapRegion, r1 0 = r2 0 →
      used_in_alloc_regions r1 = used_in_alloc_regions r2) ∧
    (∀ (reads : Nat → Option HeapRegion) (hr : HeapRegion),
      reads 0 = some hr → used_in_alloc_regions reads = hr.used) ∧
    (∀ reads : Nat → Option HeapRegion,
      reads 0 = none → used_in_alloc_regions reads = 0) := by
  refine ⟨?_, ?_, ?_⟩
  · intro r1 r2 h
    unfold used_in_alloc_regions
    rw [h]
  · intro reads hr h
    unfold used_in_alloc_regions
    rw [h]
    simp
  · intro reads h
    unfold used_in_alloc_regions
    rw [h]

theorem used_in_alloc_regions_witness :
    used_in_alloc_regions (fun i => if i = 0 then some ⟨42⟩ else none) = 42 ∧
    used_in_alloc_regions (fun _ => none) = 0 :=
  ⟨used_in_alloc_regions_spec.2.1 (fun i => if i = 0 then some ⟨42⟩ else none) ⟨42⟩ rfl,
   used_in_alloc_regions_spec.2.2 (fun _ => none) rfl⟩

/-- C10: for a valid in-collection-set destination tag, the buffer-array
index of `G1DefaultParGCAllocator::alloc_buffer` is in bounds (below
`InCSetState::Num`) and the indexed buffer is non-null, so the call
succeeds and neither assertion branch is reached. -/
theorem alloc_buffer_valid_spec (dest : InCSetState) (context : AllocationContext_t)
    (h : dest.is_valid = true) :
    (0 ≤ dest.value ∧ dest.value < InCSetState.Num) ∧
    (∃ b, G1DefaultParGCAllocator.alloc_buffer dest context = Except.ok b) := by
  have hv : 0 < dest.value ∧ dest.value < 3 := by
    simpa [InCSetState.is_valid, InCSetState.NotInCSet, InCSetState.Num] using h
  refine ⟨⟨le_of_lt hv.1, hv.2⟩, ?_⟩
  have hval : dest.value = 1 ∨ dest.value = 2 := by omega
  unfold G1DefaultParGCAllocator.alloc_buffer G1DefaultParGCAllocator.alloc_buffers
  rcases hval with hval | hval <;>
    simp [h, hval, InCSetState.Young, InCSetState.Old]

theorem alloc_buffer_valid_witness :
    (0 ≤ (InCSetState.mk 1).value ∧ (InCSetState.mk 1).value < InCSetState.Num) ∧
    (∃ b, G1DefaultParGCAllocator.alloc_buffer (InCSetState.mk 1) (0 : Nat) = Except.ok b) :=
  alloc_buffer_valid_spec (InCSetState.mk 1) (0 : Nat) (by decide)

/-- C1: `allocate` is two-tier: when `plab_allocate` succeeds with an
address, that address (and buffer state) is the result of `allocate`, for
every behaviour of `allocate_direct_or_new_plab`; only when `plab_allocate`
returns no address is `allocate_direct_or_new_plab` consulted, and its
result — address or no-address — becomes the result of `allocate`. -/
theorem allocate_two_tier (sv : Nat)
    (direct : InCSetState → Nat → AllocationContext_t → PLABState → Option Nat × PLABState)
    (dest : InCSetState) (ctx : AllocationContext_t) (b : PLABState) (n : Nat) :
    (∀ a b1, G1ParGCAllocator.plab_allocate sv dest ctx b n = (some a, b1) →
      G1ParGCAllocator.allocate sv direct dest ctx b n = (some a, b1)) ∧
    (∀ b1, G1ParGCAllocator.plab_allocate sv dest ctx b n = (none, b1) →
      G1ParGCAllocator.allocate sv direct dest ctx b n = direct dest n ctx b1) := by
  constructor
  · intro a b1 h
    unfold G1ParGCAllocator.allocate
    rw [h]
  · intro b1 h
    unfold G1ParGCAllocator.allocate
    rw [h]

theorem allocate_two_tier_witness :
    G1ParGCAllocator.allocate 0 (fun _ _ _ s => (some 99, s)) (InCSetState.mk 2) (0 : Nat)
      ⟨0, 0, 8, 0, 0, false⟩ 4 = (some 0, ⟨0, 4, 8, 0, 0, false⟩) ∧
    G1ParGCAllocator.allocate 0 (fun _ _ _ s => (some 99, s)) (InCSetState.mk 2) (0 : Nat)
      ⟨0, 0, 8, 0, 0, false⟩ 16 = (some 99, ⟨0, 0, 8, 0, 0, false⟩) :=
  ⟨(allocate_two_tier 0 (fun _ _ _ s => (some 99, s)) (InCSetState.mk 2) (0 : Nat)
      ⟨0, 0, 8, 0, 0, false⟩ 4).1 0 ⟨0, 4, 8, 0, 0, false⟩ rfl,
   (allocate_two_tier 0 (fun _ _ _ s => (some 99, s)) (InCSetState.mk 2) (0 : Nat)
      ⟨0, 0, 8, 0, 0, false⟩ 16).2 ⟨0, 0, 8, 0, 0, false⟩ rfl⟩

/-- C7: capacity exhaustion is signalled by `allocate` as a no-address
result of a total function (never an abort): `allocate` returns `none`
exactly when the buffer path `plab_allocate` returns no address and the
fall-through path `allocate_direct_or_new_plab` also returns no address. -/
theorem allocate_none_iff (sv : Nat)
    (direct : InCSetState → Nat → AllocationContext_t → PLABState → Option Nat × PLABState)
    (dest : InCSetState) (ctx : AllocationContext_t) (b : PLABState) (n : Nat) :
    (G1ParGCAllocator.allocate sv direct dest ctx b n).1 = none ↔
      ((G1ParGCAllocator.plab_allocate sv dest ctx b n).1 = none ∧
        (direct dest n ctx (G1ParGCAllocator.plab_allocate sv dest ctx b n).2).1 = none) := by
  unfold G1ParGCAllocator.allocate
  rcases h : G1ParGCAllocator.plab_allocate sv dest ctx b n with ⟨o, b1⟩
  cases o <;> simp

/-- C2: `plab_allocate` with a non-zero survivor alignment and the
young/survivor destination performs the alignment-padded allocation, and
every address it returns in that case is a multiple of the alignment; with
zero survivor alignment or a non-young destination it is exactly the plain
bump allocation (constrained only by the baseline object alignment of the
address arithmetic). -/
theorem plab_allocate_alignment (sv n : Nat) (dest : InCSetState)
    (ctx : AllocationContext_t) (b : PLABState) :
    (sv ≠ 0 → dest.is_young = true →
      G1ParGCAllocator.plab_allocate sv dest ctx b n = PLAB.allocate_aligned b n sv ∧
      ∀ a b1, G1ParGCAllocator.plab_allocate sv dest ctx b n = (some a, b1) →
        a % sv = 0) ∧
    ((sv = 0 ∨ dest.is_young = false) →
      G1ParGCAllocator.plab_allocate sv dest ctx b n = PLAB.allocate b n) := by
  constructor
  · intro hsv hyoung
    have hcond : ¬(sv = 0 ∨ dest.is_young = false) := by
      simp [hsv, hyoung]
    constructor
    · unfold G1ParGCAllocator.plab_allocate
      rw [if_neg hcond]
    · intro a b1 h
      unfold G1ParGCAllocator.plab_allocate at h
      rw [if_neg hcond] at h
      unfold PLAB.allocate_aligned at h
      by_cases hle : alignUp b.current sv + n ≤ b.limit
      · rw [if_pos hle] at h
        have ha : a = alignUp b.current sv := by
          injection h with h1 h2
          exact (Option.some.inj h1).symm
        rw [ha]
        exact alignUp_mod b.current sv
      · rw [if_neg hle] at h
        exact absurd (congrArg Prod.fst h) (by simp)
  · intro hcond
    unfold G1ParGCAllocator.plab_allocate
    rw [if_pos hcond]

theorem plab_allocate_alignment_witness :
    G1ParGCAllocator.plab_allocate 16 (InCSetState.mk 1) (0 : Nat)
        ⟨0, 5, 64, 0, 0, false⟩ 8 =
      PLAB.allocate_aligned ⟨0, 5, 64, 0, 0, false⟩ 8 16 ∧
    (16 : Nat) % 16 = 0 :=
  ⟨((plab_allocate_alignment 16 8 (InCSetState.mk 1) (0 : Nat)
      ⟨0, 5, 64, 0, 0, false⟩).1 (by decide) (by decide)).1,
   ((plab_allocate_alignment 16 8 (InCSetState.mk 1) (0 : Nat)
      ⟨0, 5, 64, 0, 0, false⟩).1 (by decide) (by decide)).2 16
      ⟨0, 24, 64, 11, 0, false⟩ (by decide)⟩

/-- C5: retiring a buffer twice is idempotent: a second `retire` after a
`retire`, and a `retire` after a `flush_and_retire_stats`, are no-ops on
the buffer state (and `retire` never touches the shared statistics sink,
so the flushed waste statistics are unchanged); in general `retire` on an
already-retired buffer returns it unchanged, so waste is never counted
twice. -/
theorem g1plab_retire_idempotent (s : PLABState) (st : PLABStatsState) :
    (s.retired = true → G1PLAB.retire s = s) ∧
    G1PLAB.retire (G1PLAB.retire s) = G1PLAB.retire s ∧
    G1PLAB.retire (G1PLAB.flush_and_retire_stats s st).1 =
      (G1PLAB.flush_and_retire_stats s st).1 := by
  have hnoop : ∀ t : PLABState, t.retired = true → G1PLAB.retire t = t := by
    intro t ht
    unfold G1PLAB.retire
    rw [if_pos ht]
  refine ⟨hnoop s, ?_, ?_⟩
  · have hret : (G1PLAB.retire s).retired = true := by
      unfold G1PLAB.retire
      cases hr : s.retired <;> simp [hr]
    exact hnoop _ hret
  · exact hnoop _ rfl

theorem g1plab_retire_idempotent_witness :
    G1PLAB.retire ⟨0, 4, 4, 0, 0, true⟩ = ⟨0, 4, 4, 0, 0, true⟩ :=
  (g1plab_retire_idempotent ⟨0, 4, 4, 0, 0, true⟩ ⟨0, 0⟩).1 rfl

/-- C4: after an `allocate(dest, n, ctx)` satisfied from the worker's
buffer at address `a` (the buffer path succeeded), `undo_allocation(dest,
a, n, ctx)` restores the buffer's allocation frontier to `a`, and the next
`allocate` of size `n` from that buffer returns `a` again; the undo is
accepted only for the address equal to the frontier minus `n` — any other
address is rejected. -/
theorem undo_allocation_rollback (sv n a : Nat) (dest : InCSetState)
    (ctx : AllocationContext_t) (b b1 : PLABState)
    (hret : b.retired = false) (hwf : b.start ≤ b.current)
    (h : G1ParGCAllocator.plab_allocate sv dest ctx b n = (some a, b1)) :
    (∀ direct, G1ParGCAllocator.allocate sv direct dest ctx b n = (some a, b1)) ∧
    (∃ b2, G1ParGCAllocator.undo_allocation dest ctx b1 a n = some b2 ∧
      b2.current = a ∧
      (G1ParGCAllocator.plab_allocate sv dest ctx b2 n).1 = some a ∧
      (∀ direct, (G1ParGCAllocator.allocate sv direct dest ctx b2 n).1 = some a)) ∧
    (∀ a2, G1ParGCAllocator.undo_allocation dest ctx b1 a2 n ≠ none → a2 = a) := by
  obtain ⟨bs, bc, bl, bw, bu, br⟩ := b
  simp only [PLABState.retired] at hret
  simp only [PLABState.start, PLABState.current] at hwf
  subst hret
  have hp := h
  unfold G1ParGCAllocator.plab_allocate at h
  by_cases hcond : sv = 0 ∨ dest.is_young = false
  · rw [if_pos hcond] at h
    unfold PLAB.allocate at h
    simp only [PLABState.current, PLABState.limit] at h
    by_cases hle : bc + n ≤ bl
    · rw [if_pos hle, Prod.mk.injEq] at h
      obtain ⟨h1, rfl⟩ := h
      injection h1 with h1
      subst h1
      refine ⟨?_, ⟨⟨bs, bc, bl, bw, bu + n, false⟩, ?_, rfl, ?_, ?_⟩, ?_⟩
      · intro direct
        unfold G1ParGCAllocator.allocate
        rw [hp]
      · simp [G1ParGCAllocator.undo_allocation, PLAB.undo_allocation, hwf]
      · simp [G1ParGCAllocator.plab_allocate, hcond, PLAB.allocate, hle]
      · intro direct
        simp [G1ParGCAllocator.allocate, G1ParGCAllocator.plab_allocate, hcond,
          PLAB.allocate, hle]
      · intro a2 h2
        simp only [G1ParGCAllocator.undo_allocation, PLAB.undo_allocation, ne_eq,
          ite_eq_right_iff, not_forall] at h2
        obtain ⟨hc2, -⟩ := h2
        omega
    · rw [if_neg hle] at h
      exact absurd (congrArg Prod.fst h) (by simp)
  · rw [if_neg hcond] at h
    push_neg at hcond
    obtain ⟨hsv, hyoungne⟩ := hcond
    have hyoung : dest.is_young = true := by
      cases hy : dest.is_young
      · exact absurd hy hyoungne
      · rfl
    have hsvpos : 0 < sv := Nat.pos_of_ne_zero hsv
    have hcondn : ¬(sv = 0 ∨ dest.is_young = false) := by simp [hsv, hyoung]
    simp only [PLAB.allocate_aligned, PLABState.current, PLABState.limit,
      PLABState.wasted] at h
    by_cases hle : alignUp bc sv + n ≤ bl
    · rw [if_pos hle, Prod.mk.injEq] at h
      obtain ⟨h1, rfl⟩ := h
      injection h1 with h1
      subst h1
      have hpad_ge : bc ≤ alignUp bc sv := alignUp_ge bc hsvpos
      have hfix : alignUp (alignUp bc sv) sv = alignUp bc sv :=
        alignUp_eq_self hsvpos (alignUp_mod bc sv)
      refine ⟨?_, ⟨⟨bs, alignUp bc sv, bl, bw + (alignUp bc sv - bc), bu + n, false⟩,
        ?_, rfl, ?_, ?_⟩, ?_⟩
      · intro direct
        unfold G1ParGCAllocator.allocate
        rw [hp]
      · simp [G1ParGCAllocator.undo_allocation, PLAB.undo_allocation,
          le_trans hwf hpad_ge]
      · simp [G1ParGCAllocator.plab_allocate, hcondn, PLAB.allocate_aligned, hfix, hle]
      · intro direct
        simp [G1ParGCAllocator.allocate, G1ParGCAllocator.plab_allocate, hcondn,
          PLAB.allocate_aligned, hfix, hle]
      · intro a2 h2
        simp only [G1ParGCAllocator.undo_allocation, PLAB.undo_allocation, ne_eq,
          ite_eq_right_iff, not_forall] at h2
        obtain ⟨hc2, -⟩ := h2
        omega
    · rw [if_neg hle] at h
      exact absurd (congrArg Prod.fst h) (by simp)

theorem undo_allocation_rollback_witness :
    PLABState.retired ⟨0, 5, 64, 0, 0, false⟩ = false ∧
    ∃ b2, G1ParGCAllocator.undo_allocation (InCSetState.mk 1) (0 : Nat)
        ⟨0, 24, 64, 11, 0, false⟩ 16 8 = some b2 ∧ b2.current = 16 :=
  ⟨rfl,
    match undo_allocation_rollback 16 8 16 (InCSetState.mk 1) (0 : Nat)
        ⟨0, 5, 64, 0, 0, false⟩ ⟨0, 24, 64, 11, 0, false⟩ rfl (by decide) (by decide) with
    | ⟨_, ⟨b2, hu, hc, _, _⟩, _⟩ => ⟨b2, hu, hc⟩⟩

theorem plab_allocate_of_retired (sv n : Nat) (dest : InCSetState)
    (ctx : AllocationContext_t) (t : PLABState)
    (hinv : BufInv t) (hr : t.retired = true) (hn : 1 ≤ n) :
    (G1ParGCAllocator.plab_allocate sv dest ctx t n).1 = none := by
  have hc : t.current = t.limit := hinv hr
  unfold G1ParGCAllocator.plab_allocate
  by_cases hcond : sv = 0 ∨ dest.is_young = false
  · rw [if_pos hcond]
    unfold PLAB.allocate
    rw [if_neg (by omega)]
  · rw [if_neg hcond]
    have hsv : 0 < sv := by
      rcases Nat.eq_zero_or_pos sv with h0 | h0
      · exact absurd (Or.inl h0) hcond
      · exact h0
    have hpad := alignUp_ge t.current hsv
    simp only [PLAB.allocate_aligned]
    rw [if_neg (by omega)]

theorem bufStep_preserves_BufInv (s : PLABState) (op : BufOp) (h : BufInv s) :
    BufInv (bufStep s op) := by
  cases op with
  | setBuf buf sz =>
      intro hr
      simp [bufStep, G1PLAB.set_buf, PLAB.set_buf] at hr
  | plabAlloc sv dest ctx n =>
      unfold bufStep G1ParGCAllocator.plab_allocate
      dsimp only
      by_cases hcond : sv = 0 ∨ dest.is_young = false
      · rw [if_pos hcond]
        unfold PLAB.allocate
        by_cases hle : s.current + n ≤ s.limit
        · rw [if_pos hle]
          intro hr
          simp only at hr
          have := h hr
          simp only
          omega
        · rw [if_neg hle]
          exact h
      · rw [if_neg hcond]
        have hsv : 0 < sv := by
          rcases Nat.eq_zero_or_pos sv with h0 | h0
          · exact absurd (Or.inl h0) hcond
          · exact h0
        have hpad := alignUp_ge s.current hsv
        simp only [PLAB.allocate_aligned]
        by_cases hle : alignUp s.current sv + n ≤ s.limit
        · rw [if_pos hle]
          intro hr
          simp only at hr
          have := h hr
          simp only
          omega
        · rw [if_neg hle]
          exact h
  | retire =>
      unfold bufStep G1PLAB.retire
      by_cases hs : s.retired = true
      · rw [if_pos hs]
        exact h
      · rw [if_neg hs]
        intro hr
        simp [PLAB.retire_internal]
  | flushRetire =>
      unfold bufStep G1PLAB.flush_and_retire_stats PLAB.flush_and_retire_stats
        PLAB.retire_internal
      intro hr
      simp
  | undo a n =>
      unfold bufStep PLAB.undo_allocation
      dsimp only
      by_cases hc : s.retired = false ∧ s.start ≤ a ∧ a + n = s.current
      · rw [if_pos hc]
        intro hr
        simp only [Option.getD] at hr
        simp [hc.1] at hr
      · rw [if_neg hc]
        exact h

/-- C3: in every sequence of buffer operations starting from a state
satisfying the retirement invariant, the invariant is maintained; whenever
the buffer's retired flag is true, no `allocate` / `plab_allocate` request
of at least one word is satisfied from the buffer (the buffer path returns
no address); and `set_buf` re-points the buffer and clears the flag. -/
theorem retired_buffer_never_satisfies (s0 : PLABState) (ops : List BufOp)
    (h0 : BufInv s0) :
    BufInv (ops.foldl bufStep s0) ∧
    ((ops.foldl bufStep s0).retired = true →
      ∀ sv dest ctx n, 1 ≤ n →
        (G1ParGCAllocator.plab_allocate sv dest ctx (ops.foldl bufStep s0) n).1 = none) ∧
    (∀ buf sz, (bufStep (ops.foldl bufStep s0) (BufOp.setBuf buf sz)).retired = false) := by
  have hinv : BufInv (ops.foldl bufStep s0) := by
    induction ops generalizing s0 with
    | nil => exact h0
    | cons op rest ih => exact ih _ (bufStep_preserves_BufInv s0 op h0)
  refine ⟨hinv, ?_, ?_⟩
  · intro hr sv dest ctx n hn
    exact plab_allocate_of_retired sv n dest ctx _ hinv hr hn
  · intro buf sz
    simp [bufStep, G1PLAB.set_buf, PLAB.set_buf]

theorem retired_buffer_never_satisfies_witness :
    (G1ParGCAllocator.plab_allocate 0 (InCSetState.mk 2) (0 : Nat)
      ([BufOp.setBuf 0 8, BufOp.plabAlloc 0 (InCSetState.mk 2) (0 : Nat) 3,
        BufOp.retire].foldl bufStep ⟨0, 0, 0, 0, 0, true⟩) 1).1 = none :=
  (retired_buffer_never_satisfies ⟨0, 0, 0, 0, 0, true⟩
      [BufOp.setBuf 0 8, BufOp.plabAlloc 0 (InCSetState.mk 2) (0 : Nat) 3,
        BufOp.retire] (fun _ => rfl)).2.1
    (by decide) 0 (InCSetState.mk 2) (0 : Nat) 1 (by decide)
